import Mathlib

/-!
Verification of the semantic-search core of the ascii-tarot repository
(`search_cards.py`), shallowly embedded in Lean.

Modelling conventions:
* Python `float` entries of embedding vectors are idealised as exact
  rationals (`ℚ`); derived scores (norms, cosine similarities) live in `ℝ`.
* A missing JSON key is an `Option` that is `none`; Python string truthiness
  (`if s:`) treats `none` and `""` as falsy.
* Python dicts built from key/value pairs are association lists with
  last-occurrence-wins lookup (`dget`), matching dict-comprehension and
  JSON-object semantics.
* `list.sort(key=lambda x: x[2], reverse=True)` is Python's stable sort by
  score descending; any stable sort with this comparison produces the same
  list, so it is modelled by Mathlib's stable `List.insertionSort` on the
  relation `simGE` (score of the left element ≥ score of the right).
* Raising an exception is modelled by `Except String`; the file-system
  dependency of `load_embeddings` is an `Option` of the parsed contents.
-/

namespace Tarot

/-- An embedding vector (`List[float]` in the source, entries idealised as `ℚ`). -/
abbrev Vec := List ℚ

/-- One record of `card_embeddings.json` as consumed by `search_cards.py`:
`card_name`, `position`, the optional `interpretation_system` key (`none`
models an absent key, as in older cache formats) and the embedding.  The
`text` field of the JSON record is never read by the search engine and is
omitted. -/
structure EmbeddingRecord where
  card_name : String
  position : String
  interpretation_system : Option String
  embedding : Vec

/-- A ranked result tuple `(card_name, position, similarity_score)`. -/
abbrev SearchResult := String × String × ℝ

/-- `np.dot` on two 1-D arrays: the sum of pairwise products.
(NumPy raises on mismatched lengths; the model totalises by truncation,
and every claim about similarity restricts to equal-length inputs.) -/
def dot : Vec → Vec → ℚ
  | [], _ => 0
  | _, [] => 0
  | a :: as, b :: bs => a * b + dot as bs

/-- `np.linalg.norm v`: the Euclidean norm `√(v·v)`. -/
noncomputable def norm (v : Vec) : ℝ :=
  Real.sqrt ((dot v v : ℚ) : ℝ)

/-- `cosine_similarity` (`search_cards.py` lines 71–92): the dot product over
the product of the norms, with the zero-norm guard returning `0.0`. -/
noncomputable def cosine_similarity (vec1 vec2 : Vec) : ℝ :=
  let dot_product : ℝ := ((dot vec1 vec2 : ℚ) : ℝ)
  let norm1 := norm vec1
  let norm2 := norm vec2
  if norm1 = 0 ∨ norm2 = 0 then 0
  else dot_product / (norm1 * norm2)

/-- `system_filter if system_filter else 'combined'` (lines 139 and 190):
a `none` or empty-string filter (Python falsy) resolves to `"combined"`. -/
def resolveSystem : Option String → String
  | none => "combined"
  | some s => if s = "" then "combined" else s

/-- Python truthiness of an optional string: `none` and `""` are falsy. -/
def strTruthy : Option String → Bool
  | none => false
  | some s => !(s == "")

/-- `card_data.get('interpretation_system', 'combined')`: the record's system,
defaulting an absent key to `"combined"`. -/
def recordSystem (c : EmbeddingRecord) : String :=
  c.interpretation_system.getD "combined"

/-- The two `continue` filters of `search_cards`' loop (lines 144–150): a
record is kept iff its (defaulted) system equals the target system and, when
the position filter is truthy, its position equals the filter. -/
def searchKeep (target_system : String) (position_filter : Option String)
    (c : EmbeddingRecord) : Bool :=
  decide (recordSystem c = target_system) &&
    (!strTruthy position_filter || decide (c.position = position_filter.getD ""))

/-- The `similarities` list accumulated by `search_cards` (lines 142–157)
before sorting: each surviving record contributes
`(card_name, position, cosine_similarity query record)`. -/
noncomputable def search_similarities (query_embedding : Vec)
    (embeddings_data : List EmbeddingRecord)
    (position_filter system_filter : Option String) : List SearchResult :=
  (embeddings_data.filter
      (searchKeep (resolveSystem system_filter) position_filter)).map
    (fun c => (c.card_name, c.position, cosine_similarity query_embedding c.embedding))

/-- The comparison of `similarities.sort(key=lambda x: x[2], reverse=True)`:
the left tuple's score is at least the right tuple's. -/
def simGE (a b : SearchResult) : Prop := b.2.2 ≤ a.2.2

noncomputable instance : DecidableRel simGE :=
  fun a b => inferInstanceAs (Decidable (b.2.2 ≤ a.2.2))

instance : IsTotal SearchResult simGE :=
  ⟨fun a b => le_total b.2.2 a.2.2⟩

instance : IsTrans SearchResult simGE :=
  ⟨fun _ _ _ hab hbc => le_trans hbc hab⟩

/-- `similarities.sort(key=lambda x: x[2], reverse=True)` (lines 160 and 230):
the stable descending sort by score, modelled by stable insertion sort on
`simGE`. -/
noncomputable def sortBySim (l : List SearchResult) : List SearchResult :=
  l.insertionSort simGE

/-- `search_cards` (lines 113–162).  The source first obtains the query's
embedding from the external API; per spec §6 the model takes that embedding
vector directly.  `top_k` is the Python `top_k` argument (the claims restrict
it to K ≥ 1, so `ℕ` is faithful). -/
noncomputable def search_cards (query_embedding : Vec)
    (embeddings_data : List EmbeddingRecord) (top_k : ℕ)
    (position_filter system_filter : Option String) : List SearchResult :=
  (sortBySim
      (search_similarities query_embedding embeddings_data position_filter system_filter)).take
    top_k

/-- The target-lookup predicate of `find_similar_cards` (lines 194–197): the
record matches the queried name, position and (defaulted) system. -/
def matchesTarget (card_name position target_system : String)
    (c : EmbeddingRecord) : Bool :=
  decide (c.card_name = card_name) && decide (c.position = position) &&
    decide (recordSystem c = target_system)

/-- The three `continue` filters of `find_similar_cards`' ranking loop
(lines 206–220): keep a record iff its system matches, it is not dropped by
`exclude_same_card` (same name, either position), and it is not dropped by
`exclude_self` (exact name and position, checked only when
`exclude_same_card` is false). -/
def similarKeep (card_name position : String)
    (exclude_self exclude_same_card : Bool) (target_system : String)
    (c : EmbeddingRecord) : Bool :=
  decide (recordSystem c = target_system) &&
    !(exclude_same_card && decide (c.card_name = card_name)) &&
    !(!exclude_same_card && exclude_self && decide (c.card_name = card_name) &&
        decide (c.position = position))

/-- The candidate pool of `find_similar_cards`: the records surviving the
system filter and the exclusion rules. -/
def similar_candidates (card_name position : String)
    (embeddings_data : List EmbeddingRecord)
    (exclude_self exclude_same_card : Bool)
    (system_filter : Option String) : List EmbeddingRecord :=
  embeddings_data.filter
    (similarKeep card_name position exclude_self exclude_same_card
      (resolveSystem system_filter))

/-- The `similarities` list accumulated by `find_similar_cards`
(lines 205–227), given the target record's embedding. -/
noncomputable def similar_similarities (card_name position : String)
    (embeddings_data : List EmbeddingRecord)
    (exclude_self exclude_same_card : Bool) (system_filter : Option String)
    (target_embedding : Vec) : List SearchResult :=
  (similar_candidates card_name position embeddings_data exclude_self
      exclude_same_card system_filter).map
    (fun c => (c.card_name, c.position, cosine_similarity target_embedding c.embedding))

/-- `find_similar_cards` (lines 165–232).  The `ValueError` raised when the
target record is missing is modelled by `Except.error` carrying the source's
message text. -/
noncomputable def find_similar_cards (card_name position : String)
    (embeddings_data : List EmbeddingRecord) (top_k : ℕ)
    (exclude_self exclude_same_card : Bool)
    (system_filter : Option String) : Except String (List SearchResult) :=
  match embeddings_data.find?
      (matchesTarget card_name position (resolveSystem system_filter)) with
  | none =>
      .error ("Card not found: " ++ card_name ++ " (" ++ position ++
        ") for system " ++ resolveSystem system_filter)
  | some target =>
      .ok ((sortBySim
          (similar_similarities card_name position embeddings_data exclude_self
            exclude_same_card system_filter target.embedding)).take top_k)

/-- `load_embeddings` (lines 47–56): the cache file is `none` when
`card_embeddings.json` is absent (then a `FileNotFoundError` with the
remediation message is raised), otherwise the parsed record list (JSON
parsing itself is external to the engine). -/
def load_embeddings (file : Option (List EmbeddingRecord)) :
    Except String (List EmbeddingRecord) :=
  match file with
  | none =>
      .error ("Embeddings file not found: card_embeddings.json\n" ++
        "Please run generate_embeddings.py first to create embeddings.")
  | some records => .ok records

/-- A card of `cards.json`, restricted to the fields the result formatter
reads: `name`, upright description `desc`, reversed description `rdesc`. -/
structure Card where
  name : String
  desc : String
  rdesc : String

/-- One structured record produced by `format_results_as_data`
(`'similarity': float(score)` is the identity on the idealised score). -/
structure FormattedResult where
  card_name : String
  position : String
  similarity : ℝ
  meaning : String

/-- Last-occurrence-wins lookup in an association list: the value a Python
dict built from these pairs (later keys overwriting earlier ones) holds at
key `k`, or `none` when `k` is absent. -/
def dget {α : Type} (l : List (String × α)) (k : String) : Option α :=
  l.foldl (fun acc kv => if kv.1 = k then some kv.2 else acc) none

/-- `card_lookup = {card['name']: card for card in cards_data}` followed by
`card_lookup.get(card_name)` (lines 254 and 258). -/
def card_lookup (cards_data : List Card) (n : String) : Option Card :=
  dget (cards_data.map (fun c => (c.name, c))) n

/-- `interpretations.json`: card name ↦ system ↦ position ↦ meaning text. -/
abbrev InterpDict := List (String × List (String × List (String × String)))

/-- `card['desc'] if position == 'upright' else card['rdesc']`. -/
def base_meaning (card : Card) (position : String) : String :=
  if position = "upright" then card.desc else card.rdesc

/-- The `meaning` computed for one result row by `format_results_as_data`
(lines 262–273): the system-specific text when the system is not
`"combined"`, the interpretation store is truthy (present and non-empty) and
holds the card, the system and the position; the card's base description
otherwise.  The Python `and`-chain of membership tests is flattened into
nested matches. -/
def format_meaning (card : Card) (card_name position system : String) :
    Option InterpDict → String
  | none => base_meaning card position
  | some idata =>
    if system = "combined" ∨ idata = [] then base_meaning card position
    else
      match dget idata card_name with
      | none => base_meaning card position
      | some card_interp =>
        match dget card_interp system with
        | none => base_meaning card position
        | some sys_interp =>
          match dget sys_interp position with
          | none => base_meaning card position
          | some t => t

/-- The body of `format_results_as_data`'s loop for one result tuple:
`none` when the card name is absent from the card store (the row is
silently skipped), otherwise the structured record. -/
def format_entry (cards_data : List Card) (system : String)
    (interpretations_data : Option InterpDict) (x : SearchResult) :
    Option FormattedResult :=
  match card_lookup cards_data x.1 with
  | none => none
  | some card =>
    some ⟨x.1, x.2.1, x.2.2, format_meaning card x.1 x.2.1 system interpretations_data⟩

/-- `format_results_as_data` (lines 235–283). -/
def format_results_as_data (results : List SearchResult)
    (cards_data : List Card) (system : String)
    (interpretations_data : Option InterpDict) : List FormattedResult :=
  results.filterMap (format_entry cards_data system interpretations_data)

/-- The flat three-level lookup into the interpretation store: the text it
holds for (card, system, position), if any. -/
def interp_text : Option InterpDict → String → String → String → Option String
  | none, _, _, _ => none
  | some idata, card_name, system, position =>
    match dget idata card_name with
    | none => none
    | some card_interp =>
      match dget card_interp system with
      | none => none
      | some sys_interp => dget sys_interp position

/-- The Bool predicate picking the result tuples whose score equals `c`; used
to state stability (equal-score tuples keep their relative order). -/
noncomputable def scoreEq (c : ℝ) (x : SearchResult) : Bool :=
  decide (x.2.2 = c)

/-- Concrete records and stores instantiating the theorems below. -/
def fool_up : EmbeddingRecord := ⟨"The Fool", "upright", none, [1]⟩

def fool_rev : EmbeddingRecord := ⟨"The Fool", "reversed", none, [1]⟩

def magician_up : EmbeddingRecord := ⟨"The Magician", "upright", none, [1]⟩

def store1 : List EmbeddingRecord := [fool_up]

def store2 : List EmbeddingRecord := [fool_up, magician_up]

def storeFool : List EmbeddingRecord := [fool_up, fool_rev]

/-! ### Helper lemmas -/

theorem dot_comm : ∀ a b : Vec, dot a b = dot b a
  | [], [] => rfl
  | [], _ :: _ => rfl
  | _ :: _, [] => rfl
  | a :: as, b :: bs => by rw [dot, dot, mul_comm, dot_comm as bs]

theorem isPrefix_filter (p : SearchResult → Bool) {l₁ l₂ : List SearchResult}
    (h : l₁ <+: l₂) : l₁.filter p <+: l₂.filter p := by
  obtain ⟨t, rfl⟩ := h
  exact ⟨t.filter p, (List.filter_append ..).symm⟩

theorem take_isPrefix (n : ℕ) (l : List SearchResult) : l.take n <+: l :=
  ⟨l.drop n, List.take_append_drop n l⟩

theorem filter_orderedInsert (c : ℝ) (a : SearchResult) (l : List SearchResult) :
    (l.orderedInsert simGE a).filter (scoreEq c) = ((a :: l).filter (scoreEq c)) := by
  induction l with
  | nil => rfl
  | cons b l ih =>
    by_cases hab : simGE a b
    · rw [List.orderedInsert_of_le _ _ hab]
    · rw [List.orderedInsert, if_neg hab]
      by_cases ha : a.2.2 = c
      · have hb : ¬(b.2.2 = c) := fun hbc => hab (le_of_eq (hbc.trans ha.symm))
        simp [List.filter_cons, scoreEq, ha, hb, ih]
      · simp [List.filter_cons, scoreEq, ha, ih]

theorem filter_sortBySim (c : ℝ) (l : List SearchResult) :
    (sortBySim l).filter (scoreEq c) = l.filter (scoreEq c) := by
  induction l with
  | nil => rfl
  | cons a l ih =>
    rw [sortBySim, List.insertionSort, filter_orderedInsert,
      List.filter_cons, List.filter_cons]
    rw [sortBySim] at ih
    rw [ih]

theorem sorted_sortBySim (l : List SearchResult) : List.Sorted simGE (sortBySim l) :=
  List.sorted_insertionSort simGE l

theorem sorted_take (k : ℕ) (l : List SearchResult) (h : List.Sorted simGE l) :
    List.Sorted simGE (l.take k) :=
  List.Pairwise.sublist (List.take_sublist k l) h

theorem stable_take (c : ℝ) (k : ℕ) (l : List SearchResult) :
    ((sortBySim l).take k).filter (scoreEq c) <+: l.filter (scoreEq c) := by
  have h := isPrefix_filter (scoreEq c) (take_isPrefix k (sortBySim l))
  rwa [filter_sortBySim] at h

theorem mem_search_cards {x : SearchResult} {query_embedding : Vec}
    {embeddings_data : List EmbeddingRecord} {top_k : ℕ}
    {position_filter system_filter : Option String}
    (hx : x ∈ search_cards query_embedding embeddings_data top_k position_filter
        system_filter) :
    ∃ r ∈ embeddings_data,
      searchKeep (resolveSystem system_filter) position_filter r = true ∧
      x = (r.card_name, r.position, cosine_similarity query_embedding r.embedding) := by
  unfold search_cards at hx
  have hx2 : x ∈ sortBySim (search_similarities query_embedding embeddings_data
      position_filter system_filter) := (List.take_sublist _ _).subset hx
  rw [sortBySim, List.mem_insertionSort] at hx2
  unfold search_similarities at hx2
  obtain ⟨r, hr, rfl⟩ := List.mem_map.mp hx2
  obtain ⟨hrmem, hrkeep⟩ := List.mem_filter.mp hr
  exact ⟨r, hrmem, hrkeep, rfl⟩

theorem find_similar_ok_shape {card_name position : String}
    {embeddings_data : List EmbeddingRecord} {top_k : ℕ}
    {exclude_self exclude_same_card : Bool} {system_filter : Option String}
    {l : List SearchResult}
    (hok : find_similar_cards card_name position embeddings_data top_k
        exclude_self exclude_same_card system_filter = .ok l) :
    ∃ target,
      embeddings_data.find?
          (matchesTarget card_name position (resolveSystem system_filter)) =
        some target ∧
      l = (sortBySim (similar_similarities card_name position embeddings_data
          exclude_self exclude_same_card system_filter target.embedding)).take top_k := by
  unfold find_similar_cards at hok
  cases hfind : embeddings_data.find?
      (matchesTarget card_name position (resolveSystem system_filter)) with
  | none => rw [hfind] at hok; exact absurd hok (by simp)
  | some target =>
    rw [hfind] at hok
    simp only [Except.ok.injEq] at hok
    exact ⟨target, rfl, hok.symm⟩

theorem mem_similar_results {card_name position : String}
    {embeddings_data : List EmbeddingRecord} {top_k : ℕ}
    {exclude_self exclude_same_card : Bool} {system_filter : Option String}
    {l : List SearchResult} {x : SearchResult}
    (hok : find_similar_cards card_name position embeddings_data top_k
        exclude_self exclude_same_card system_filter = .ok l)
    (hx : x ∈ l) :
    ∃ r ∈ embeddings_data,
      similarKeep card_name position exclude_self exclude_same_card
          (resolveSystem system_filter) r = true ∧
      ∃ target,
        embeddings_data.find?
            (matchesTarget card_name position (resolveSystem system_filter)) =
          some target ∧
        x = (r.card_name, r.position, cosine_similarity target.embedding r.embedding) := by
  obtain ⟨target, hfind, rfl⟩ := find_similar_ok_shape hok
  have hx2 : x ∈ sortBySim (similar_similarities card_name position embeddings_data
      exclude_self exclude_same_card system_filter target.embedding) :=
    (List.take_sublist _ _).subset hx
  rw [sortBySim, List.mem_insertionSort] at hx2
  unfold similar_similarities at hx2
  obtain ⟨r, hr, rfl⟩ := List.mem_map.mp hx2
  obtain ⟨hrmem, hrkeep⟩ := List.mem_filter.mp hr
  exact ⟨r, hrmem, hrkeep, target, hfind, rfl⟩

/-! ### Claim theorems -/

/-- Claim C1: the result sequences produced by `search_cards` and (on
success) `find_similar_cards` are sorted by similarity score in
non-increasing order (`List.Sorted simGE`), and the sort is stable: for every
score value `c`, the sub-sequence of result tuples with score `c` is a prefix
of the corresponding sub-sequence of the unsorted scored candidate list,
which lists the surviving records in input-collection order. -/
theorem search_results_sorted_and_stable
    (query_embedding : Vec) (embeddings_data : List EmbeddingRecord) (top_k : ℕ)
    (position_filter system_filter : Option String)
    (card_name position : String) (exclude_self exclude_same_card : Bool)
    (l : List SearchResult) (c : ℝ)
    (hok : find_similar_cards card_name position embeddings_data top_k
        exclude_self exclude_same_card system_filter = .ok l) :
    List.Sorted simGE
        (search_cards query_embedding embeddings_data top_k position_filter
          system_filter) ∧
      (search_cards query_embedding embeddings_data top_k position_filter
            system_filter).filter (scoreEq c) <+:
        (search_similarities query_embedding embeddings_data position_filter
            system_filter).filter (scoreEq c) ∧
      List.Sorted simGE l ∧
      ∃ target,
        embeddings_data.find?
            (matchesTarget card_name position (resolveSystem system_filter)) =
          some target ∧
        l.filter (scoreEq c) <+:
          (similar_similarities card_name position embeddings_data exclude_self
              exclude_same_card system_filter target.embedding).filter (scoreEq c) := by
  refine ⟨sorted_take _ _ (sorted_sortBySim _), stable_take _ _ _, ?_⟩
  unfold find_similar_cards at hok
  cases hfind : embeddings_data.find?
      (matchesTarget card_name position (resolveSystem system_filter)) with
  | none => rw [hfind] at hok; exact absurd hok (by simp)
  | some target =>
    rw [hfind] at hok
    simp only [Except.ok.injEq] at hok
    subst hok
    exact ⟨sorted_take _ _ (sorted_sortBySim _), target, rfl, stable_take _ _ _⟩

/-- Witness for C1 at a concrete two-record store. -/
theorem search_results_sorted_and_stable_witness :
    List.Sorted simGE (search_cards [(1 : ℚ)] store2 1 none none) :=
  (search_results_sorted_and_stable [(1 : ℚ)] store2 1 none none "The Fool"
      "upright" true true
      [("The Magician", "upright", cosine_similarity [(1 : ℚ)] [(1 : ℚ)])] 0 rfl).1

/-- Counterexample to C2 as stated: with `system_filter = some ""` the filter
is given, so the claim's resolved target system is `""`; but the code treats
the Python-falsy empty string like an absent filter and resolves to
`"combined"`, so the lone record (absent system key, hence `"combined"`)
is returned even though its system differs from the claimed target `""`. -/
theorem results_match_filters_empty_string_counterexample :
    ¬ ∀ x ∈ search_cards [(1 : ℚ)] store1 1 none (some ""),
        ∃ r ∈ store1, r.card_name = x.1 ∧ r.position = x.2.1 ∧
          recordSystem r = "" := by
  intro h
  have hx : ("The Fool", "upright", cosine_similarity [(1 : ℚ)] [(1 : ℚ)]) ∈
      search_cards [(1 : ℚ)] store1 1 none (some "") := by
    rw [show search_cards [(1 : ℚ)] store1 1 none (some "") =
        [("The Fool", "upright", cosine_similarity [(1 : ℚ)] [(1 : ℚ)])] from rfl]
    exact List.mem_singleton.mpr rfl
  obtain ⟨r, hr, -, -, hsys⟩ := h _ hx
  simp only [store1, List.mem_singleton] at hr
  subst hr
  simp [recordSystem, fool_up] at hsys

/-- Claim C2 (amended): every result of `search_cards` or of a successful
`find_similar_cards` comes from a record of the collection whose
`interpretation_system` (defaulting an absent key to `"combined"`) equals the
resolved target system, where the target is the caller's `system_filter`
when a non-empty one is given and `"combined"` when it is absent or empty
(`resolveSystem`); and for `search_cards`, when a non-empty position filter
is given, the result's position equals that filter. -/
theorem results_match_resolved_filters
    (query_embedding : Vec) (embeddings_data : List EmbeddingRecord) (top_k : ℕ)
    (position_filter system_filter : Option String)
    (card_name position : String) (exclude_self exclude_same_card : Bool)
    (l : List SearchResult)
    (hok : find_similar_cards card_name position embeddings_data top_k
        exclude_self exclude_same_card system_filter = .ok l) :
    (∀ x ∈ search_cards query_embedding embeddings_data top_k position_filter
        system_filter,
      ∃ r ∈ embeddings_data, r.card_name = x.1 ∧ r.position = x.2.1 ∧
        recordSystem r = resolveSystem system_filter ∧
        ∀ p, position_filter = some p → p ≠ "" → x.2.1 = p) ∧
    (∀ x ∈ l,
      ∃ r ∈ embeddings_data, r.card_name = x.1 ∧ r.position = x.2.1 ∧
        recordSystem r = resolveSystem system_filter) := by
  constructor
  · intro x hx
    obtain ⟨r, hrmem, hrkeep, rfl⟩ := mem_search_cards hx
    simp only [searchKeep, Bool.and_eq_true, Bool.or_eq_true, Bool.not_eq_true',
      decide_eq_true_eq] at hrkeep
    refine ⟨r, hrmem, rfl, rfl, hrkeep.1, ?_⟩
    intro p hp hpne
    rcases hrkeep.2 with hfalsy | hpos
    · rw [hp] at hfalsy
      simp only [strTruthy, Bool.not_eq_false', beq_iff_eq] at hfalsy
      exact absurd hfalsy hpne
    · rw [hp] at hpos
      exact hpos
  · intro x hx
    obtain ⟨r, hrmem, hrkeep, target, -, rfl⟩ := mem_similar_results hok hx
    simp only [similarKeep, Bool.and_eq_true, decide_eq_true_eq] at hrkeep
    exact ⟨r, hrmem, rfl, rfl, hrkeep.1.1⟩

/-- Witness for C2 (amended) at a concrete one-record store, applied to the
one result that the concrete search returns. -/
theorem results_match_resolved_filters_witness :
    ∃ r ∈ store1, r.card_name = "The Fool" ∧ r.position = "upright" ∧
      recordSystem r = resolveSystem none ∧
      ∀ p, (none : Option String) = some p → p ≠ "" → "upright" = p :=
  (results_match_resolved_filters [(1 : ℚ)] store1 1 none none "The Fool"
      "upright" true true [] rfl).1
    ("The Fool", "upright", cosine_similarity [(1 : ℚ)] [(1 : ℚ)])
    (List.mem_singleton.mpr rfl)

/-- Claim C3: with `exclude_same_card = true`, a successful
`find_similar_cards` call never returns a tuple carrying the queried card's
name, whatever the position and whatever `exclude_self` is. -/
theorem exclude_same_card_never_returns_target
    (card_name position : String) (embeddings_data : List EmbeddingRecord)
    (top_k : ℕ) (exclude_self : Bool) (system_filter : Option String)
    (l : List SearchResult)
    (hok : find_similar_cards card_name position embeddings_data top_k
        exclude_self true system_filter = .ok l) :
    ∀ x ∈ l, x.1 ≠ card_name := by
  intro x hx
  obtain ⟨r, -, hrkeep, -, -, rfl⟩ := mem_similar_results hok hx
  simp only [similarKeep, Bool.true_and, Bool.and_eq_true, Bool.not_eq_true',
    decide_eq_true_eq, decide_eq_false_iff_not] at hrkeep
  exact hrkeep.1.2

/-- Witness for C3 at a concrete two-record store, applied to the one result
that the concrete query returns. -/
theorem exclude_same_card_never_returns_target_witness :
    ("The Magician", "upright", cosine_similarity [(1 : ℚ)] [(1 : ℚ)]).1 ≠
      "The Fool" :=
  exclude_same_card_never_returns_target "The Fool" "upright" store2 1 true none
    [("The Magician", "upright", cosine_similarity [(1 : ℚ)] [(1 : ℚ)])] rfl
    ("The Magician", "upright", cosine_similarity [(1 : ℚ)] [(1 : ℚ)])
    (List.mem_singleton.mpr rfl)

/-- Claim C4: with `exclude_same_card = false` and `exclude_self = true`, the
exclusion removes exactly the record matching both the queried name and the
queried position: a system-matching record is a candidate iff it is not that
exact pair, and a surviving same-name opposite-position record appears in the
returned results whenever `top_k` covers the candidate pool. -/
theorem exclude_self_excludes_exactly_exact_match
    (card_name position : String) (embeddings_data : List EmbeddingRecord)
    (top_k : ℕ) (system_filter : Option String)
    (r tgt : EmbeddingRecord) (l : List SearchResult)
    (hr : r ∈ embeddings_data)
    (hsys : recordSystem r = resolveSystem system_filter)
    (hfind : embeddings_data.find?
        (matchesTarget card_name position (resolveSystem system_filter)) = some tgt)
    (hok : find_similar_cards card_name position embeddings_data top_k
        true false system_filter = .ok l) :
    (r ∈ similar_candidates card_name position embeddings_data true false
        system_filter ↔
      ¬(r.card_name = card_name ∧ r.position = position)) ∧
    (¬(r.card_name = card_name ∧ r.position = position) →
      (similar_candidates card_name position embeddings_data true false
          system_filter).length ≤ top_k →
      (r.card_name, r.position, cosine_similarity tgt.embedding r.embedding) ∈ l) := by
  have hkeep : ∀ c : EmbeddingRecord,
      similarKeep card_name position true false (resolveSystem system_filter) c =
          true ↔
        (recordSystem c = resolveSystem system_filter ∧
          ¬(c.card_name = card_name ∧ c.position = position)) := by
    intro c
    simp only [similarKeep, Bool.false_and, Bool.not_false, Bool.and_true,
      Bool.true_and, Bool.and_eq_true, Bool.not_eq_true', Bool.and_eq_false_iff,
      decide_eq_true_eq, decide_eq_false_iff_not]
    tauto
  constructor
  · rw [similar_candidates, List.mem_filter]
    constructor
    · rintro ⟨-, hk⟩
      exact ((hkeep r).mp hk).2
    · intro hne
      exact ⟨hr, (hkeep r).mpr ⟨hsys, hne⟩⟩
  · intro hne hlen
    obtain ⟨target, hfind2, rfl⟩ := find_similar_ok_shape hok
    rw [hfind2] at hfind
    cases hfind
    rw [List.take_of_length_le
      (by rw [sortBySim, List.length_insertionSort, similar_similarities,
        List.length_map]; exact hlen)]
    rw [sortBySim, List.mem_insertionSort, similar_similarities, List.mem_map]
    exact ⟨r, List.mem_filter.mpr ⟨hr, (hkeep r).mpr ⟨hsys, hne⟩⟩, rfl⟩

/-- Witness for C4: querying ("The Fool", "upright") with
`exclude_same_card = false, exclude_self = true` returns
("The Fool", "reversed"). -/
theorem exclude_self_excludes_exactly_exact_match_witness :
    ("The Fool", "reversed", cosine_similarity [(1 : ℚ)] [(1 : ℚ)]) ∈
      [("The Fool", "reversed", cosine_similarity [(1 : ℚ)] [(1 : ℚ)])] :=
  (exclude_self_excludes_exactly_exact_match "The Fool" "upright" storeFool 5
      none fool_rev fool_up
      [("The Fool", "reversed", cosine_similarity [(1 : ℚ)] [(1 : ℚ)])]
      (by simp [storeFool]) rfl rfl rfl).2 (by decide) (by decide)

/-- Claim C5: `find_similar_cards` fails (with the `Card not found` error)
iff the collection holds no record whose name, position and defaulted
`interpretation_system` all equal the queried values. -/
theorem find_similar_error_iff_no_match
    (card_name position : String) (embeddings_data : List EmbeddingRecord)
    (top_k : ℕ) (exclude_self exclude_same_card : Bool)
    (system_filter : Option String) :
    (∃ e, find_similar_cards card_name position embeddings_data top_k
        exclude_self exclude_same_card system_filter = .error e) ↔
      ∀ r ∈ embeddings_data,
        ¬(r.card_name = card_name ∧ r.position = position ∧
          recordSystem r = resolveSystem system_filter) := by
  unfold find_similar_cards
  cases hfind : embeddings_data.find?
      (matchesTarget card_name position (resolveSystem system_filter)) with
  | none =>
    dsimp only
    constructor
    · rintro - r hrmem hmatch
      have hnot := List.find?_eq_none.mp hfind r hrmem
      apply hnot
      simp only [matchesTarget, Bool.and_eq_true, decide_eq_true_eq]
      exact ⟨⟨hmatch.1, hmatch.2.1⟩, hmatch.2.2⟩
    · rintro -
      exact ⟨_, rfl⟩
  | some target =>
    dsimp only
    constructor
    · rintro ⟨e, he⟩
      exact absurd he (by simp)
    · intro hall
      exfalso
      have hmem := List.mem_of_find?_eq_some hfind
      have hp := List.find?_some hfind
      simp only [matchesTarget, Bool.and_eq_true, decide_eq_true_eq] at hp
      exact hall target hmem ⟨hp.1.1, hp.1.2, hp.2⟩

/-- Claim C7: both ranking operations return at most `top_k` tuples, and when
`top_k` covers the surviving candidate pool they return a permutation of the
whole scored pool (every surviving record, nothing dropped, no failure). -/
theorem top_k_truncation
    (query_embedding : Vec) (embeddings_data : List EmbeddingRecord) (top_k : ℕ)
    (position_filter system_filter : Option String)
    (card_name position : String) (exclude_self exclude_same_card : Bool)
    (l : List SearchResult)
    (hok : find_similar_cards card_name position embeddings_data top_k
        exclude_self exclude_same_card system_filter = .ok l) :
    (search_cards query_embedding embeddings_data top_k position_filter
        system_filter).length ≤ top_k ∧
    ((search_similarities query_embedding embeddings_data position_filter
          system_filter).length ≤ top_k →
      List.Perm
        (search_cards query_embedding embeddings_data top_k position_filter
          system_filter)
        (search_similarities query_embedding embeddings_data position_filter
          system_filter)) ∧
    l.length ≤ top_k ∧
    (∀ target,
      embeddings_data.find?
          (matchesTarget card_name position (resolveSystem system_filter)) =
        some target →
      (similar_similarities card_name position embeddings_data exclude_self
          exclude_same_card system_filter target.embedding).length ≤ top_k →
      List.Perm l
        (similar_similarities card_name position embeddings_data exclude_self
          exclude_same_card system_filter target.embedding)) := by
  obtain ⟨target0, hfind0, rfl⟩ := find_similar_ok_shape hok
  refine ⟨List.length_take_le _ _, ?_, List.length_take_le _ _, ?_⟩
  · intro hlen
    rw [search_cards, List.take_of_length_le
      (by rw [sortBySim, List.length_insertionSort]; exact hlen)]
    exact List.perm_insertionSort simGE _
  · intro target hfind hlen
    rw [hfind0] at hfind
    cases hfind
    rw [List.take_of_length_le
      (by rw [sortBySim, List.length_insertionSort]; exact hlen)]
    exact List.perm_insertionSort simGE _

/-- Witness for C7 at a concrete one-record store. -/
theorem top_k_truncation_witness :
    (search_cards [(1 : ℚ)] store1 1 none none).length ≤ 1 :=
  (top_k_truncation [(1 : ℚ)] store1 1 none none "The Fool" "upright" true true
      [] rfl).1

/-- Claim C6: for equal-length vectors, if either vector has zero norm then
`cosine_similarity` returns `0.0`; and whenever the zero-norm guard does not
fire, the denominator `norm1 * norm2` of the division is nonzero — so the
(total) function never divides by zero. -/
theorem cosine_similarity_zero_norm (v1 v2 : Vec) (h : v1.length = v2.length) :
    ((norm v1 = 0 ∨ norm v2 = 0) → cosine_similarity v1 v2 = 0) ∧
    (¬(norm v1 = 0 ∨ norm v2 = 0) → norm v1 * norm v2 ≠ 0) := by
  constructor
  · intro hz
    simp only [cosine_similarity]
    rw [if_pos hz]
  · intro hnz
    push_neg at hnz
    exact mul_ne_zero hnz.1 hnz.2

/-- Witness for C6: the zero vector against a nonzero vector scores `0`. -/
theorem cosine_similarity_zero_norm_witness :
    cosine_similarity [(0 : ℚ)] [(3 : ℚ)] = 0 :=
  (cosine_similarity_zero_norm [(0 : ℚ)] [(3 : ℚ)] rfl).1
    (Or.inl (by simp [norm, dot]))

theorem dget_ne_nil {α : Type} {l : List (String × α)} {k : String} {v : α}
    (h : dget l k = some v) : l ≠ [] := by
  rintro rfl
  exact absurd h (by simp [dget])

theorem format_meaning_of_interp_text_some
    (card : Card) (card_name position system : String)
    (interpretations_data : Option InterpDict) (t : String)
    (hsys : system ≠ "combined")
    (ht : interp_text interpretations_data card_name system position = some t) :
    format_meaning card card_name position system interpretations_data = t := by
  cases interpretations_data with
  | none => exact absurd ht (by simp [interp_text])
  | some idata =>
    simp only [interp_text] at ht
    simp only [format_meaning]
    cases h1 : dget idata card_name with
    | none =>
      rw [h1] at ht
      exact absurd ht (by simp)
    | some card_interp =>
      rw [h1] at ht
      dsimp only at ht ⊢
      rw [if_neg (not_or.mpr ⟨hsys, dget_ne_nil h1⟩)]
      cases h2 : dget card_interp system with
      | none =>
        rw [h2] at ht
        exact absurd ht (by simp)
      | some sys_interp =>
        rw [h2] at ht
        dsimp only at ht ⊢
        rw [ht]

theorem format_meaning_of_base_case
    (card : Card) (card_name position system : String)
    (interpretations_data : Option InterpDict)
    (h : system = "combined" ∨
      interp_text interpretations_data card_name system position = none) :
    format_meaning card card_name position system interpretations_data =
      base_meaning card position := by
  cases interpretations_data with
  | none => rfl
  | some idata =>
    by_cases hsys : system = "combined"
    · simp only [format_meaning]
      rw [if_pos (Or.inl hsys)]
    · have ht := h.resolve_left hsys
      by_cases hempty : idata = []
      · simp only [format_meaning]
        rw [if_pos (Or.inr hempty)]
      · simp only [format_meaning]
        rw [if_neg (not_or.mpr ⟨hsys, hempty⟩)]
        simp only [interp_text] at ht
        cases h1 : dget idata card_name with
        | none => rfl
        | some card_interp =>
          rw [h1] at ht
          dsimp only at ht ⊢
          cases h2 : dget card_interp system with
          | none => rfl
          | some sys_interp =>
            rw [h2] at ht
            dsimp only at ht ⊢
            rw [ht]

theorem format_entry_of_card_found
    (cards_data : List Card) (system : String)
    (interpretations_data : Option InterpDict)
    (card_name position : String) (score : ℝ) (card : Card)
    (hcard : card_lookup cards_data card_name = some card) :
    format_entry cards_data system interpretations_data
        (card_name, position, score) =
      some ⟨card_name, position, score,
        format_meaning card card_name position system interpretations_data⟩ := by
  unfold format_entry
  rw [show (card_name, position, score).1 = card_name from rfl, hcard]

/-- Claim C8: a ranked result whose card name resolves in the card store is
formatted with `meaning` equal to the system-specific interpretation text
when the system is not `"combined"` and the store holds text for
(card, system, position), and equal to the card's base description (`desc`
upright, `rdesc` otherwise) in every other case. -/
theorem format_results_meaning_selection
    (results : List SearchResult) (cards_data : List Card) (system : String)
    (interpretations_data : Option InterpDict)
    (card_name position : String) (score : ℝ) (card : Card)
    (hmem : (card_name, position, score) ∈ results)
    (hcard : card_lookup cards_data card_name = some card) :
    (∀ t, system ≠ "combined" →
      interp_text interpretations_data card_name system position = some t →
      (⟨card_name, position, score, t⟩ : FormattedResult) ∈
        format_results_as_data results cards_data system interpretations_data) ∧
    ((system = "combined" ∨
        interp_text interpretations_data card_name system position = none) →
      (⟨card_name, position, score, base_meaning card position⟩ : FormattedResult) ∈
        format_results_as_data results cards_data system interpretations_data) := by
  constructor
  · intro t hsys ht
    rw [format_results_as_data, List.mem_filterMap]
    refine ⟨(card_name, position, score), hmem, ?_⟩
    rw [format_entry_of_card_found cards_data system interpretations_data
      card_name position score card hcard,
      format_meaning_of_interp_text_some card card_name position system
        interpretations_data t hsys ht]
  · intro hbase
    rw [format_results_as_data, List.mem_filterMap]
    refine ⟨(card_name, position, score), hmem, ?_⟩
    rw [format_entry_of_card_found cards_data system interpretations_data
      card_name position score card hcard,
      format_meaning_of_base_case card card_name position system
        interpretations_data hbase]

/-- Witness for C8 at a one-card store with one system-specific text. -/
theorem format_results_meaning_selection_witness :
    (⟨"The Fool", "upright", (0 : ℝ), "fool rws text"⟩ : FormattedResult) ∈
      format_results_as_data [("The Fool", "upright", (0 : ℝ))]
        [⟨"The Fool", "base desc", "base rdesc"⟩] "rws_traditional"
        (some [("The Fool", [("rws_traditional", [("upright", "fool rws text")])])]) :=
  (format_results_meaning_selection [("The Fool", "upright", (0 : ℝ))]
      [⟨"The Fool", "base desc", "base rdesc"⟩] "rws_traditional"
      (some [("The Fool", [("rws_traditional", [("upright", "fool rws text")])])])
      "The Fool" "upright" (0 : ℝ) ⟨"The Fool", "base desc", "base rdesc"⟩
      (List.mem_singleton.mpr rfl) rfl).1
    "fool rws text" (by decide) rfl

/-- Claim C9: when the embedding cache file is absent `load_embeddings`
fails with the message that instructs the user to run
`generate_embeddings.py` first; when it is present the load succeeds with
the parsed records. -/
theorem load_embeddings_absent_error :
    load_embeddings none =
      .error ("Embeddings file not found: card_embeddings.json\n" ++
        "Please run generate_embeddings.py first to create embeddings.") ∧
    ∀ records, load_embeddings (some records) = .ok records :=
  ⟨rfl, fun _ => rfl⟩

/-- Claim C10: `cosine_similarity` is symmetric in its two arguments,
zero-norm fallback included. -/
theorem cosine_similarity_symm (v1 v2 : Vec) (h : v1.length = v2.length) :
    cosine_similarity v1 v2 = cosine_similarity v2 v1 := by
  simp only [cosine_similarity]
  by_cases hz : norm v1 = 0 ∨ norm v2 = 0
  · rw [if_pos hz, if_pos (Or.symm hz)]
  · rw [if_neg hz, if_neg (fun hc => hz (Or.symm hc)), dot_comm v2 v1,
      mul_comm (norm v2) (norm v1)]

/-- Witness for C10 on a concrete pair of vectors. -/
theorem cosine_similarity_symm_witness :
    cosine_similarity [(1 : ℚ), 2] [(3 : ℚ), 4] =
      cosine_similarity [(3 : ℚ), 4] [(1 : ℚ), 2] :=
  cosine_similarity_symm [(1 : ℚ), 2] [(3 : ℚ), 4] rfl

end Tarot
